import Mathlib

/-!
Verification of the interrupt-routing core of a KVM-based VMM
(pin allocators, GSI allocator, KVM IRQ routing table, and the
MSI/legacy interrupt objects layered on top).

Shallow embedding conventions:
* Rust u32/u64 values are Nat; wrap-around is made explicit with % 2^64
  where the source relies on machine-width truncation (hash_key).
* A BTreeSet of pins is an ascending List Nat (the source only removes
  elements after construction, so sortedness is preserved and
  iter().next() is the head = minimum).
* A VecDeque is a List with the front at the head.
* The HashMap of routes is an association List (Nat × Entry); the
  HashMap entry().and_modify().or_insert() and insert() upserts are
  routesUpsert, HashMap::remove is routesErase.  Claims never depend on
  iteration order.
* The hypervisor set_gsi_routing ioctl is an external oracle: commit
  number n succeeds iff hyp n = true, where hyp : Nat → Bool is an
  arbitrary environment parameter and the table counts its commits.
* Fallible code returns Except; a Rust panic (unwrap on an empty
  VecDeque) is the distinguished outer value PanicErr.
-/

deriving instance DecidableEq for Except

/-- Placeholder for a Rust panic (e.g. Option::unwrap on None). -/
inductive PanicErr where
  | panicked
  deriving DecidableEq

/-- KVM ABI constant (kvm_bindings): routing entry type IRQCHIP. -/
def KVM_IRQ_ROUTING_IRQCHIP : Nat := 1

/-- KVM ABI constant (kvm_bindings): routing entry type MSI. -/
def KVM_IRQ_ROUTING_MSI : Nat := 2

/-- KVM ABI constant (kvm_bindings): the master 8259 PIC chip id. -/
def KVM_IRQCHIP_PIC_MASTER : Nat := 0

/-- KVM ABI constant (kvm_bindings): the slave 8259 PIC chip id. -/
def KVM_IRQCHIP_PIC_SLAVE : Nat := 1

/-- KVM ABI constant (kvm_bindings): the IO-APIC chip id. -/
def KVM_IRQCHIP_IOAPIC : Nat := 2

/-- KVM ABI constant (kvm_bindings): flag marking the MSI devid as valid. -/
def KVM_MSI_VALID_DEVID : Nat := 1

/-- Modelled from the spec: the x86_64 arch constant IRQ_MAX (crate
arch is not under src/).  The spec uses it only as the upper bound of
the IO-APIC pin range {1..=IRQ_MAX} \ {2}; concrete scenarios are run
at the upstream x86_64 value 23.  All structural results are stated
for an arbitrary bound irqMax. -/
def IRQ_MAX : Nat := 23

/-- Modelled from the spec: the x86_64 arch constant IRQ_BASE (crate
arch is not under src/); the first legacy IRQ number handed out by the
GSI allocator.  Upstream x86_64 value 5; results about the allocator
are stated for an arbitrary base. -/
def IRQ_BASE : Nat := 5

/-- Embedding of kvm_irq_routing_entry.  The Rust struct holds a union
u; since every access in the source is discriminated by type_, the
union is flattened into separate irqchip/msi field groups, all
Default-initialized to 0. -/
structure Entry where
  gsi : Nat
  type_ : Nat
  flags : Nat
  irqchip_irqchip : Nat
  irqchip_pin : Nat
  msi_address_lo : Nat
  msi_address_hi : Nat
  msi_data : Nat
  msi_devid : Nat
  deriving DecidableEq

/-- The all-zero kvm_irq_routing_entry produced by Default::default(). -/
def Entry.default0 : Entry :=
  { gsi := 0, type_ := 0, flags := 0, irqchip_irqchip := 0, irqchip_pin := 0,
    msi_address_lo := 0, msi_address_hi := 0, msi_data := 0, msi_devid := 0 }

/-- IoApic pin pool (kvm_irqchip.rs): available_pins is a BTreeSet
modelled as an ascending list, shared_pins a VecDeque modelled as a
list with the front at the head. -/
structure IoApic where
  available_pins : List Nat
  shared_pins : List Nat
  deriving DecidableEq

/-- IoApic::new(): all pins 1..=irqMax except pin 2 (reserved for
XT-PIC chaining) are available; nothing is shared. -/
def IoApic.new (irqMax : Nat) : IoApic :=
  { available_pins := (List.range' 1 irqMax).filter (fun i => i != 2),
    shared_pins := [] }

/-- IoApic::allocate_pin.  Faithful to the source control flow: a
requested pin that is available is taken (and appended to shared_pins
if shared); a requested pin that is only shared is rotated to the back
of shared_pins and returned if shared; a requested pin that is in
neither set returns None only in the shared case - in the exclusive
case the source falls through to the generic path.  The generic path
takes the minimum available pin; if none is available and shared, the
source does shared_pins.pop_front().unwrap(), which panics when
shared_pins is empty (the .error case). -/
def IoApic.allocate_pin (s : IoApic) (shared : Bool) (requested_pin : Option Nat) :
    Except PanicErr (Option Nat × IoApic) :=
  let general : Except PanicErr (Option Nat × IoApic) :=
    match s.available_pins with
    | p :: rest =>
        .ok (some p, { available_pins := rest,
                       shared_pins := if shared then s.shared_pins ++ [p] else s.shared_pins })
    | [] =>
        if shared then
          match s.shared_pins with
          | [] => .error .panicked
          | p :: rest => .ok (some p, { s with shared_pins := rest ++ [p] })
        else
          .ok (none, s)
  match requested_pin with
  | some rpin =>
      if s.available_pins.contains rpin then
        .ok (some rpin,
             { available_pins := s.available_pins.erase rpin,
               shared_pins := if shared then s.shared_pins ++ [rpin] else s.shared_pins })
      else if shared then
        if s.shared_pins.contains rpin then
          .ok (some rpin, { s with shared_pins := s.shared_pins.erase rpin ++ [rpin] })
        else
          .ok (none, s)
      else
        general
  | none => general

/-- XtPic pin pool (kvm_irqchip.rs): a single BTreeSet of available
pins, modelled as an ascending list. -/
structure XtPic where
  available_pins : List Nat
  deriving DecidableEq

/-- XtPic::new(): pins 1..=15 except pin 2 (slave cascade). -/
def XtPic.new : XtPic :=
  { available_pins := (List.range' 1 15).filter (fun i => i != 2) }

/-- XtPic::allocate_pin: a requested pin is taken iff available,
otherwise the minimum available pin; exclusive only. -/
def XtPic.allocate_pin (s : XtPic) (requested_pin : Option Nat) : Option Nat × XtPic :=
  match requested_pin with
  | some pin =>
      if s.available_pins.contains pin then
        (some pin, { available_pins := s.available_pins.erase pin })
      else
        (none, s)
  | none =>
      match s.available_pins with
      | p :: rest => (some p, { available_pins := rest })
      | [] => (none, s)

/-- HashMap upsert: entry(key).and_modify(overwrite).or_insert /
HashMap::insert on the routes map. -/
def routesUpsert (m : List (Nat × Entry)) (k : Nat) (v : Entry) : List (Nat × Entry) :=
  if (m.lookup k).isSome then
    m.map (fun p => if p.1 = k then (k, v) else p)
  else
    m ++ [(k, v)]

/-- HashMap::remove on the routes map. -/
def routesErase (m : List (Nat × Entry)) (k : Nat) : List (Nat × Entry) :=
  m.filter (fun p => p.1 != k)

/-- The chip component hash_key extracts: the irqchip id for IRQCHIP
entries, 0 for every other entry type. -/
def chipOf (e : Entry) : Nat :=
  if e.type_ = KVM_IRQ_ROUTING_IRQCHIP then e.irqchip_irqchip else 0

/-- KvmIrqRoutingTable::hash_key:
(u64::from(irq_chip) << 48 | u64::from(type_) << 32) | u64::from(gsi),
with the u64 truncation of the 48-bit shift made explicit (the fields
are u32, so only the shifted chip can exceed 64 bits). -/
def hash_key (e : Entry) : Nat :=
  ((((chipOf e % 2 ^ 32) <<< 48) % 2 ^ 64) ||| ((e.type_ % 2 ^ 32) <<< 32)) ||| e.gsi % 2 ^ 32

/-- Routing errors (kvm_irq_routing.rs Error); the io::Error payload of
GsiRoutingError is opaque and dropped. -/
inductive RError where
  | gsiRoutingError
  | pinAllocationError
  deriving DecidableEq

/-- KvmIrqRoutingTable state: the routes HashMap, the two pin pools,
and the number of set_gsi_routing commits issued so far (the index
into the hypervisor oracle). -/
structure RTable where
  routes : List (Nat × Entry)
  ioapic : IoApic
  xt_pic : XtPic
  commits : Nat
  deriving DecidableEq

/-- KvmIrqRoutingTable::MAX_ROUTES. -/
def RTable.MAX_ROUTES : Nat := 4096

/-- KvmIrqRoutingTable::set_routing: serializes the map and issues one
set_gsi_routing ioctl.  The hypervisor is the oracle hyp: commit
number n succeeds iff hyp n. -/
def set_routing (hyp : Nat → Bool) (s : RTable) : Bool × RTable :=
  (hyp s.commits, { s with commits := s.commits + 1 })

/-- The member-wise fresh table built by KvmIrqRoutingTable::new before
its initial commit. -/
def RTable.fresh (irqMax : Nat) : RTable :=
  { routes := [], ioapic := IoApic.new irqMax, xt_pic := XtPic.new, commits := 0 }

/-- KvmIrqRoutingTable::new: empty table, immediately committed;
errors with GsiRoutingError when the initial commit fails. -/
def RTable.new (hyp : Nat → Bool) (irqMax : Nat) : Except RError RTable :=
  match set_routing hyp (RTable.fresh irqMax) with
  | (true, s') => .ok s'
  | (false, _) => .error .gsiRoutingError

/-- The MSI kvm_irq_routing_entry route_msi builds: flags =
KVM_MSI_VALID_DEVID, msi payload from the arguments, everything else
Default-initialized. -/
def msiEntry (gsi high_addr low_addr data devid : Nat) : Entry :=
  { Entry.default0 with
    gsi := gsi, type_ := KVM_IRQ_ROUTING_MSI, flags := KVM_MSI_VALID_DEVID,
    msi_address_lo := low_addr, msi_address_hi := high_addr,
    msi_data := data, msi_devid := devid }

/-- KvmIrqRoutingTable::route_msi: builds the MSI entry (flags =
KVM_MSI_VALID_DEVID), upserts it under its hash key, commits, and on
commit failure removes the key and reports GsiRoutingError. -/
def RTable.route_msi (hyp : Nat → Bool) (s : RTable)
    (gsi high_addr low_addr data devid : Nat) : Except RError Unit × RTable :=
  let entry : Entry := msiEntry gsi high_addr low_addr data devid
  let key := hash_key entry
  let s1 := { s with routes := routesUpsert s.routes key entry }
  match set_routing hyp s1 with
  | (true, s2) => (.ok (), s2)
  | (false, s2) => (.error .gsiRoutingError, { s2 with routes := routesErase s2.routes key })

/-- KvmIrqRoutingTable::route_intx: allocates a shared IO-APIC pin
(panics are propagated from the allocator), inserts one IO-APIC
IRQCHIP entry, commits, rolls the key back on commit failure, and
returns the pin. -/
def RTable.route_intx (hyp : Nat → Bool) (s : RTable) (gsi _intx : Nat)
    (pin : Option Nat) : Except PanicErr (Except RError Nat × RTable) :=
  match s.ioapic.allocate_pin true pin with
  | .error e => .error e
  | .ok (some p, io') =>
      let entry : Entry :=
        { Entry.default0 with
          gsi := gsi, type_ := KVM_IRQ_ROUTING_IRQCHIP,
          irqchip_irqchip := KVM_IRQCHIP_IOAPIC, irqchip_pin := p }
      let key := hash_key entry
      let s1 := { s with ioapic := io', routes := routesUpsert s.routes key entry }
      match set_routing hyp s1 with
      | (true, s2) => .ok (.ok p, s2)
      | (false, s2) =>
          .ok (.error .gsiRoutingError, { s2 with routes := routesErase s2.routes key })
  | .ok (none, io') => .ok (.error .pinAllocationError, { s with ioapic := io' })

/-- Second half of KvmIrqRoutingTable::route_generic (the IO-APIC
step, lines 230-261): allocates an exclusive IO-APIC pin for req (the
requested pin, possibly upgraded to the pin the XT-PIC step obtained);
interrupt_line is Some when the XT-PIC step already committed an
entry.  Note the source builds the IO-APIC entry with its gsi field
set to the allocated pin, not to the gsi route_generic was called
with.  On commit failure the entry is removed; the error surfaces only
when the XT-PIC step had not succeeded.  Finally the PIC line is
preferred; PinAllocationError iff both halves failed. -/
def RTable.route_generic_ioapic (hyp : Nat → Bool) (s : RTable)
    (req interrupt_line : Option Nat) : Except PanicErr (Except RError Nat × RTable) :=
  match s.ioapic.allocate_pin false req with
  | .error e => .error e
  | .ok (some ioapic_pin, io') =>
      let entry : Entry :=
        { Entry.default0 with
          gsi := ioapic_pin, type_ := KVM_IRQ_ROUTING_IRQCHIP,
          irqchip_irqchip := KVM_IRQCHIP_IOAPIC, irqchip_pin := ioapic_pin }
      let key := hash_key entry
      let s1 := { s with ioapic := io', routes := routesUpsert s.routes key entry }
      match set_routing hyp s1 with
      | (true, s2) => .ok (.ok ioapic_pin, s2)
      | (false, s2) =>
          let s3 := { s2 with routes := routesErase s2.routes key }
          match interrupt_line with
          | none => .ok (.error .gsiRoutingError, s3)
          | some l => .ok (.ok l, s3)
  | .ok (none, io') =>
      match interrupt_line with
      | some l => .ok (.ok l, { s with ioapic := io' })
      | none => .ok (.error .pinAllocationError, { s with ioapic := io' })

/-- KvmIrqRoutingTable::route_generic: first the XT-PIC step - on an
allocated PIC pin, insert a PIC_MASTER (pin 0..=7) or PIC_SLAVE (pin
8..=15, stored as pin-8) entry carrying the argument gsi, commit, and
propagate GsiRoutingError on commit failure (removing the key); the
raw pin becomes the interrupt line and the upgraded requested pin.
Then the IO-APIC step (route_generic_ioapic). -/
def RTable.route_generic (hyp : Nat → Bool) (s : RTable) (gsi : Nat)
    (pin : Option Nat) : Except PanicErr (Except RError Nat × RTable) :=
  match s.xt_pic.allocate_pin pin with
  | (some pic_pin, xt') =>
      let chip_pin : Nat × Nat :=
        if pic_pin ≤ 7 then (KVM_IRQCHIP_PIC_MASTER, pic_pin)
        else if pic_pin ≤ 15 then (KVM_IRQCHIP_PIC_SLAVE, pic_pin - 8)
        else (0, 0)
      let pic_entry : Entry :=
        { Entry.default0 with
          gsi := gsi, type_ := KVM_IRQ_ROUTING_IRQCHIP,
          irqchip_irqchip := chip_pin.1, irqchip_pin := chip_pin.2 }
      let key := hash_key pic_entry
      let s1 := { s with xt_pic := xt', routes := routesUpsert s.routes key pic_entry }
      match set_routing hyp s1 with
      | (false, s2) =>
          .ok (.error .gsiRoutingError, { s2 with routes := routesErase s2.routes key })
      | (true, s2) =>
          RTable.route_generic_ioapic hyp s2 (some pic_pin) (some pic_pin)
  | (none, xt') =>
      RTable.route_generic_ioapic hyp { s with xt_pic := xt' } pin none

/-- Errors of the vm_device interrupt interface used by mod.rs. -/
inductive VmDeviceError where
  | invalidConfiguration
  | interruptNotChanged
  | interruptNotTriggered
  deriving DecidableEq

/-- vm_device msi::MsiIrqConfig as consumed by mod.rs. -/
structure MsiIrqConfig where
  high_addr : Nat
  low_addr : Nat
  data : Nat
  devid : Nat
  deriving DecidableEq

/-- vm_device legacy::LegacyIrqConfig as consumed by mod.rs. -/
structure LegacyIrqConfig where
  interrupt_line : Option Nat
  interrupt_pin : Option Nat
  deriving DecidableEq

/-- Observable per-interrupt state of KvmMsiInterrupt (mod.rs): the
inner KvmInterrupt's gsi and atomic flags, plus the config snapshot
mutex.  The eventfd and fd handles are outside the embedding. -/
structure KvmMsiState where
  gsi : Nat
  registered : Bool
  configured : Bool
  config : Option MsiIrqConfig
  deriving DecidableEq

/-- KvmMsiInterrupt::new: fresh flags, no snapshot. -/
def KvmMsiState.new (gsi : Nat) : KvmMsiState :=
  { gsi := gsi, registered := false, configured := false, config := none }

/-- KvmMsiInterrupt::update (mod.rs lines 91-104): rejects with
InvalidConfiguration while registered; otherwise calls route_msi as
the source does - passing cfg.low_addr as route_msi's high_addr
parameter and cfg.high_addr as its low_addr parameter - discards the
routing result, leaves the interrupt state (including config)
untouched, and returns Ok. -/
def KvmMsiInterrupt.update (hyp : Nat → Bool) (st : KvmMsiState) (t : RTable)
    (cfg : MsiIrqConfig) : Except VmDeviceError Unit × KvmMsiState × RTable :=
  if st.registered then
    (.error .invalidConfiguration, st, t)
  else
    let r := RTable.route_msi hyp t st.gsi cfg.low_addr cfg.high_addr cfg.data cfg.devid
    (.ok (), st, r.2)

/-- KvmInterrupt::register_irqfd as used by the MSI/legacy enable
paths: a no-op when already registered; otherwise the
register_irqfd ioctl (outcome given by the environment flag ok) either
sets registered or propagates its error. -/
def KvmInterrupt.register_irqfd (ok : Bool) (registered : Bool) : Except Unit Bool :=
  if registered then .ok registered
  else if ok then .ok true
  else .error ()

/-- KvmInterrupt::unregister_irqfd, dual to register_irqfd. -/
def KvmInterrupt.unregister_irqfd (ok : Bool) (registered : Bool) : Except Unit Bool :=
  if !registered then .ok registered
  else if ok then .ok false
  else .error ()

/-- KvmMsiInterrupt::enable: register_irqfd with errors mapped to
InterruptNotChanged; returns the updated registered flag. -/
def KvmMsiInterrupt.enable (ok : Bool) (st : KvmMsiState) :
    Except VmDeviceError Unit × KvmMsiState :=
  match KvmInterrupt.register_irqfd ok st.registered with
  | .ok r => (.ok (), { st with registered := r })
  | .error _ => (.error .interruptNotChanged, st)

/-- KvmMsiInterrupt::disable, dual to enable. -/
def KvmMsiInterrupt.disable (ok : Bool) (st : KvmMsiState) :
    Except VmDeviceError Unit × KvmMsiState :=
  match KvmInterrupt.unregister_irqfd ok st.registered with
  | .ok r => (.ok (), { st with registered := r })
  | .error _ => (.error .interruptNotChanged, st)

/-- KvmMsiInterrupt::get_config: the snapshot if one was ever stored,
InvalidConfiguration otherwise. -/
def KvmMsiInterrupt.get_config (st : KvmMsiState) : Except VmDeviceError MsiIrqConfig :=
  match st.config with
  | some c => .ok c
  | none => .error .invalidConfiguration

/-- One public operation on a KvmMsiInterrupt.  The Bool carried by
enable/disable/mask/unmask/trigger is the environment's outcome for
the underlying ioctl or eventfd write. -/
inductive MsiOp where
  | update (cfg : MsiIrqConfig)
  | enable (ok : Bool)
  | disable (ok : Bool)
  | mask (ok : Bool)
  | unmask (ok : Bool)
  | trigger (ok : Bool)
  deriving DecidableEq

/-- State transition of one KvmMsiInterrupt operation (mask/unmask are
the source's aliases for disable/enable; trigger never touches the
interrupt state). -/
def msiStep (hyp : Nat → Bool) (s : KvmMsiState × RTable) (op : MsiOp) :
    KvmMsiState × RTable :=
  match op with
  | .update cfg => (KvmMsiInterrupt.update hyp s.1 s.2 cfg).2
  | .enable ok => ((KvmMsiInterrupt.enable ok s.1).2, s.2)
  | .disable ok => ((KvmMsiInterrupt.disable ok s.1).2, s.2)
  | .mask ok => ((KvmMsiInterrupt.disable ok s.1).2, s.2)
  | .unmask ok => ((KvmMsiInterrupt.enable ok s.1).2, s.2)
  | .trigger _ => s

/-- A whole sequence of KvmMsiInterrupt operations. -/
def msiRun (hyp : Nat → Bool) (s : KvmMsiState × RTable) (ops : List MsiOp) :
    KvmMsiState × RTable :=
  ops.foldl (msiStep hyp) s

/-- Observable per-interrupt state of KvmLegacyInterrupt (mod.rs). -/
structure KvmLegacyState where
  gsi : Nat
  registered : Bool
  configured : Bool
  config : Option LegacyIrqConfig
  deriving DecidableEq

/-- KvmLegacyInterrupt::new: fresh flags, no snapshot. -/
def KvmLegacyState.new (gsi : Nat) : KvmLegacyState :=
  { gsi := gsi, registered := false, configured := false, config := none }

/-- KvmLegacyInterrupt::update (mod.rs lines 174-192).  With
cfg.interrupt_pin set it calls route_intx and discards the routing
result; otherwise it calls route_generic and stores the returned line
into a fresh snapshot (the source stores route_generic's raw return
value in the snapshot's interrupt_line slot - against the
error-returning routing table under src/ this is its Result, modelled
here as the line when present).  In both branches the snapshot is
written, configured is set, and Ok is returned regardless of the
routing outcome; allocator panics propagate. -/
def KvmLegacyInterrupt.update (hyp : Nat → Bool) (st : KvmLegacyState) (t : RTable)
    (cfg : LegacyIrqConfig) :
    Except PanicErr (Except VmDeviceError Unit × KvmLegacyState × RTable) :=
  match cfg.interrupt_pin with
  | some intx =>
      match RTable.route_intx hyp t st.gsi intx cfg.interrupt_line with
      | .error e => .error e
      | .ok (_res, t') =>
          .ok (.ok (), { st with config := some cfg, configured := true }, t')
  | none =>
      match RTable.route_generic hyp t st.gsi cfg.interrupt_line with
      | .error e => .error e
      | .ok (res, t') =>
          .ok (.ok (),
               { st with
                 config := some { interrupt_line := res.toOption, interrupt_pin := none },
                 configured := true },
               t')

/-- KvmLegacyInterrupt::enable: refuses with InterruptNotChanged until
configured, then registers like the MSI path. -/
def KvmLegacyInterrupt.enable (ok : Bool) (st : KvmLegacyState) :
    Except VmDeviceError Unit × KvmLegacyState :=
  if !st.configured then
    (.error .interruptNotChanged, st)
  else
    match KvmInterrupt.register_irqfd ok st.registered with
    | .ok r => (.ok (), { st with registered := r })
    | .error _ => (.error .interruptNotChanged, st)

/-- GSI allocator errors (vm-allocator gsi.rs). -/
inductive GsiError where
  | overflow
  deriving DecidableEq

/-- DefaultGsiAllocator state (vm-allocator gsi.rs): the IRQ cursor,
the GSI cursor, and the IRQ cap. -/
structure DefaultGsiAllocator where
  next_irq : Nat
  next_gsi : Nat
  max_irq : Nat
  deriving DecidableEq

/-- DefaultGsiAllocator::new on x86_64: next_irq starts at IRQ_BASE and
next_gsi at IRQ_MAX + 1.  The two arch constants are passed explicitly
(crate arch is not under src/); concrete runs use IRQ_BASE = 5,
IRQ_MAX = 23. -/
def DefaultGsiAllocator.new (irqBase irqMaxArch max_irq : Nat) : DefaultGsiAllocator :=
  { next_irq := irqBase, next_gsi := irqMaxArch + 1, max_irq := max_irq }

/-- DefaultGsiAllocator::allocate_gsi: returns next_gsi and advances it
with u32 checked arithmetic, failing with Overflow on wrap. -/
def DefaultGsiAllocator.allocate_gsi (s : DefaultGsiAllocator) :
    Except GsiError Nat × DefaultGsiAllocator :=
  if s.next_gsi + 1 < 2 ^ 32 then
    (.ok s.next_gsi, { s with next_gsi := s.next_gsi + 1 })
  else
    (.error .overflow, s)

/-- DefaultGsiAllocator::allocate_irq exactly as the source writes it:
returns next_irq unless it exceeds max_irq, then advances the IRQ
cursor to next_gsi + 1 (the source reads the GSI cursor here, not the
IRQ cursor). -/
def DefaultGsiAllocator.allocate_irq (s : DefaultGsiAllocator) :
    Except GsiError Nat × DefaultGsiAllocator :=
  let irq := s.next_irq
  if s.max_irq < irq then
    (.error .overflow, s)
  else
    (.ok irq, { s with next_irq := s.next_gsi + 1 })

/-- Hypervisor environment that accepts every commit. -/
def htrue : Nat → Bool := fun _ => true

/-- Hypervisor environment that rejects every commit. -/
def hfalse : Nat → Bool := fun _ => false

/-- IRQCHIP entry literal with the given chip, pin and gsi fields,
used to spell out scenario results. -/
def chipEntry (chip pin gsi : Nat) : Entry :=
  { Entry.default0 with
    gsi := gsi, type_ := KVM_IRQ_ROUTING_IRQCHIP,
    irqchip_irqchip := chip, irqchip_pin := pin }

/-- Scenario run for the fresh-table legacy routing claims: build a
table (all commits accepted), call route_generic(gsi = 32, pin = None)
twice, and record each returned line together with the routes after
the call. -/
def c1_run : Option ((Nat × List (Nat × Entry)) × (Nat × List (Nat × Entry))) :=
  match RTable.new htrue 23 with
  | .error _ => none
  | .ok t0 =>
      match RTable.route_generic htrue t0 32 none with
      | .ok (.ok l1, t1) =>
          match RTable.route_generic htrue t1 32 none with
          | .ok (.ok l2, t2) => some ((l1, t1.routes), (l2, t2.routes))
          | _ => none
      | _ => none

/-- Hypervisor environment for the rollback scenario: the first two
commits (table reset and first route_msi) succeed, everything after
fails. -/
def c3_hyp : Nat → Bool := fun n => n < 2

/-- Rollback scenario: route_msi twice on gsi 5 (same RouteKey); the
second commit fails.  Records the route count after the first call and
the routes after the failed second call. -/
def c3_run : Option (Nat × List (Nat × Entry)) :=
  match RTable.new c3_hyp 23 with
  | .error _ => none
  | .ok t0 =>
      match RTable.route_msi c3_hyp t0 5 10 20 30 40 with
      | (.ok (), t1) =>
          match RTable.route_msi c3_hyp t1 5 11 21 31 41 with
          | (.error .gsiRoutingError, t2) => some (t1.routes.length, t2.routes)
          | _ => none
      | _ => none

/-- GsiAllocator::new(IRQ_MAX) at the x86_64 constants IRQ_BASE = 5,
IRQ_MAX = 23. -/
def c4_alloc : DefaultGsiAllocator := DefaultGsiAllocator.new 5 23 23

/-- Iterated exclusive allocation: n calls of allocate_pin(false, None),
keeping the pool state (an allocator panic, impossible for exclusive
allocations, would stop the iteration). -/
def ioapicExhaustExclusive (s : IoApic) : Nat → IoApic
  | 0 => s
  | n + 1 =>
      match s.allocate_pin false none with
      | .ok (_, s') => ioapicExhaustExclusive s' n
      | .error _ => s

/-- The pool left after exhausting a fresh 23-pin IO-APIC pool with its
22 possible exclusive allocations. -/
def c6_state : IoApic := ioapicExhaustExclusive (IoApic.new 23) 22

/-- MSI configuration with distinct high/low address fields. -/
def c7_cfg : MsiIrqConfig := { high_addr := 1, low_addr := 2, data := 3, devid := 4 }

/-- Scenario run: MSI update on a fresh, unregistered interrupt (gsi
40, all commits accepted); records the routing entries installed. -/
def c7_run : Option (List Entry) :=
  match RTable.new htrue 23 with
  | .error _ => none
  | .ok t0 =>
      match KvmMsiInterrupt.update htrue (KvmMsiState.new 40) t0 c7_cfg with
      | (.ok (), _, t1) => some (t1.routes.map Prod.snd)
      | _ => none

/-- Hypervisor environment for the legacy-update scenario: only the
initial table reset succeeds; every later commit fails. -/
def c8_hyp : Nat → Bool := fun n => n == 0

/-- Legacy configuration taking the route_intx branch of update. -/
def c8_cfg : LegacyIrqConfig := { interrupt_line := some 1, interrupt_pin := some 1 }

/-- Scenario run: on a fresh table whose commits all fail after the
reset, evaluate both the raw route_intx call (to exhibit its error)
and KvmLegacyInterrupt::update with the same arguments; records the
routing result, the update result, and the interrupt state after
update. -/
def c8_run : Option ((Except RError Nat) × (Except VmDeviceError Unit) × KvmLegacyState) :=
  match RTable.new c8_hyp 23 with
  | .error _ => none
  | .ok t0 =>
      match RTable.route_intx c8_hyp t0 40 1 (some 1),
            KvmLegacyInterrupt.update c8_hyp (KvmLegacyState.new 40) t0 c8_cfg with
      | .ok (rroute, _), .ok (rupd, st', _) => some (rroute, rupd, st')
      | _, _ => none

/-- Key-collision witness entry: an IRQCHIP entry on the slave PIC. -/
def c9a : Entry := chipEntry 1 0 0

/-- Key-collision witness entry: a (hypothetical) entry whose type has
bit 16 set; hash_key reads its chip component as 0. -/
def c9b : Entry := { Entry.default0 with gsi := 0, type_ := 65537 }

/-- Shape of any entry the IO-APIC half of route_generic can add: an
IO-APIC IRQCHIP entry whose gsi field equals its own pin. -/
def ioapicSelfGsi (e : Entry) : Prop :=
  e.type_ = KVM_IRQ_ROUTING_IRQCHIP ∧ e.irqchip_irqchip = KVM_IRQCHIP_IOAPIC ∧
    e.gsi = e.irqchip_pin

/-- Shape of any entry the PIC half of route_generic can add: a
master- or slave-PIC IRQCHIP entry carrying the argument gsi. -/
def picOwnGsi (gsi : Nat) (e : Entry) : Prop :=
  e.type_ = KVM_IRQ_ROUTING_IRQCHIP ∧
    (e.irqchip_irqchip = KVM_IRQCHIP_PIC_MASTER ∨
     e.irqchip_irqchip = KVM_IRQCHIP_PIC_SLAVE) ∧
    e.gsi = gsi

/-- Erasing the upserted key removes exactly the overwritten cell. -/
theorem filter_map_upsert (l : List (Nat × Entry)) (k : Nat) (v : Entry) :
    (l.map (fun p => if p.1 = k then (k, v) else p)).filter (fun p => p.1 != k) =
      l.filter (fun p => p.1 != k) := by
  induction l with
  | nil => rfl
  | cons a l ih =>
      by_cases ha : a.1 = k
      · simp [ha, ih]
      · simp [List.filter_cons, ha, ih]

/-- Rolling back an upsert by erasing its key erases at most the pre-existing cell at that key. -/
theorem routesErase_upsert (m : List (Nat × Entry)) (k : Nat) (v : Entry) :
    routesErase (routesUpsert m k v) k = routesErase m k := by
  unfold routesUpsert routesErase
  by_cases h : (m.lookup k).isSome
  · simp only [h, if_true]
    exact filter_map_upsert m k v
  · simp only [h, if_false, Bool.false_eq_true]
    rw [List.filter_append]
    simp

/-- A key that lookup misses heads no cell of the map. -/
theorem lookup_none_key_ne (m : List (Nat × Entry)) (k : Nat)
    (h : m.lookup k = none) : ∀ p ∈ m, p.1 ≠ k := by
  induction m with
  | nil =>
      intro p hp
      cases hp
  | cons a l ih =>
      intro p hp
      obtain ⟨a1, a2⟩ := a
      rw [List.lookup] at h
      by_cases hk : k = a1
      · exfalso
        simp [hk] at h
      · have hbeq : (k == a1) = false := beq_false_of_ne hk
        rw [hbeq] at h
        rcases List.mem_cons.mp hp with rfl | ht
        · exact fun he => hk he.symm
        · exact ih h p ht

/-- Erasing an absent key is a no-op. -/
theorem routesErase_of_lookup_none (m : List (Nat × Entry)) (k : Nat)
    (h : m.lookup k = none) : routesErase m k = m := by
  unfold routesErase
  rw [List.filter_eq_self]
  intro p hp
  simpa using lookup_none_key_ne m k h p hp

/-- Membership after an upsert: an old cell or the new one. -/
theorem mem_routesUpsert (m : List (Nat × Entry)) (k : Nat) (v : Entry)
    (p : Nat × Entry) (hp : p ∈ routesUpsert m k v) : p ∈ m ∨ p = (k, v) := by
  unfold routesUpsert at hp
  by_cases h : (m.lookup k).isSome
  · rw [if_pos h] at hp
    rcases List.mem_map.mp hp with ⟨q, hq, he⟩
    by_cases hqk : q.1 = k
    · right
      rw [if_pos hqk] at he
      exact he.symm
    · left
      rw [if_neg hqk] at he
      exact he ▸ hq
  · rw [if_neg h] at hp
    rcases List.mem_append.mp hp with hl | hr
    · exact Or.inl hl
    · exact Or.inr (List.mem_singleton.mp hr)

/-- Membership after an erase implies prior membership. -/
theorem mem_routesErase (m : List (Nat × Entry)) (k : Nat)
    (p : Nat × Entry) (hp : p ∈ routesErase m k) : p ∈ m :=
  (List.mem_filter.mp hp).1

/-- Entries after the IO-APIC half of route_generic: pre-existing ones, or an IO-APIC entry whose gsi is its own pin. -/
theorem route_generic_ioapic_mem (hyp : Nat → Bool) (s : RTable)
    (req il : Option Nat) (r : Except RError Nat) (s' : RTable)
    (h : RTable.route_generic_ioapic hyp s req il = .ok (r, s'))
    (p : Nat × Entry) (hp : p ∈ s'.routes) :
    p ∈ s.routes ∨ ioapicSelfGsi p.2 := by
  rcases h1 : s.ioapic.allocate_pin false req with e | ⟨op, io2⟩
  · rw [RTable.route_generic_ioapic, h1] at h
    exact absurd h (by simp)
  · rcases op with _ | pin
    · rw [RTable.route_generic_ioapic, h1] at h
      rcases il with _ | l
      all_goals
        simp only [Except.ok.injEq, Prod.mk.injEq] at h
        obtain ⟨hr, hs⟩ := h
        subst hs
        exact Or.inl hp
    · rw [RTable.route_generic_ioapic, h1] at h
      simp only [set_routing] at h
      cases hb : hyp (s.commits) with
      | true =>
          rw [hb] at h
          simp only [Except.ok.injEq, Prod.mk.injEq] at h
          obtain ⟨hr, hs⟩ := h
          subst hs
          simp only at hp
          rcases mem_routesUpsert _ _ _ p hp with hmem | hpe
          · exact Or.inl hmem
          · right
            rw [hpe]
            exact ⟨rfl, rfl, rfl⟩
      | false =>
          rw [hb] at h
          rcases il with _ | l
          all_goals
            simp only [Except.ok.injEq, Prod.mk.injEq] at h
            obtain ⟨hr, hs⟩ := h
            subst hs
            simp only at hp
            rcases mem_routesUpsert _ _ _ p (mem_routesErase _ _ p hp) with hmem | hpe
            · exact Or.inl hmem
            · right
              rw [hpe]
              exact ⟨rfl, rfl, rfl⟩

/-- Entries after route_msi (any outcome): pre-existing ones, or MSI entries carrying the argument gsi. -/
theorem route_msi_mem (hyp : Nat → Bool) (s : RTable) (gsi hi lo data devid : Nat)
    (r : Except RError Unit) (s' : RTable)
    (h : RTable.route_msi hyp s gsi hi lo data devid = (r, s'))
    (p : Nat × Entry) (hp : p ∈ s'.routes) : p ∈ s.routes ∨ p.2.gsi = gsi := by
  rw [RTable.route_msi] at h
  simp only [set_routing] at h
  cases hb : hyp (s.commits) with
  | true =>
      rw [hb] at h
      simp only [Prod.mk.injEq] at h
      obtain ⟨hr, hs⟩ := h
      subst hs
      simp only at hp
      rcases mem_routesUpsert _ _ _ p hp with hmem | hpe
      · exact Or.inl hmem
      · right
        rw [hpe]
        rfl
  | false =>
      rw [hb] at h
      simp only [Prod.mk.injEq] at h
      obtain ⟨hr, hs⟩ := h
      subst hs
      simp only at hp
      rcases mem_routesUpsert _ _ _ p (mem_routesErase _ _ p hp) with hmem | hpe
      · exact Or.inl hmem
      · right
        rw [hpe]
        rfl

/-- Entries after a non-panicking route_intx: pre-existing ones, or entries carrying the argument gsi. -/
theorem route_intx_mem (hyp : Nat → Bool) (s : RTable) (gsi ix : Nat)
    (pin : Option Nat) (r : Except RError Nat) (s' : RTable)
    (h : RTable.route_intx hyp s gsi ix pin = .ok (r, s'))
    (p : Nat × Entry) (hp : p ∈ s'.routes) : p ∈ s.routes ∨ p.2.gsi = gsi := by
  rcases h1 : s.ioapic.allocate_pin true pin with e | ⟨op, io2⟩
  · rw [RTable.route_intx, h1] at h
    exact absurd h (by simp)
  · rcases op with _ | pin2
    · rw [RTable.route_intx, h1] at h
      simp only [Except.ok.injEq, Prod.mk.injEq] at h
      obtain ⟨hr, hs⟩ := h
      subst hs
      exact Or.inl hp
    · rw [RTable.route_intx, h1] at h
      simp only [set_routing] at h
      cases hb : hyp (s.commits) with
      | true =>
          rw [hb] at h
          simp only [Except.ok.injEq, Prod.mk.injEq] at h
          obtain ⟨hr, hs⟩ := h
          subst hs
          simp only at hp
          rcases mem_routesUpsert _ _ _ p hp with hmem | hpe
          · exact Or.inl hmem
          · right
            rw [hpe]
      | false =>
          rw [hb] at h
          simp only [Except.ok.injEq, Prod.mk.injEq] at h
          obtain ⟨hr, hs⟩ := h
          subst hs
          simp only at hp
          rcases mem_routesUpsert _ _ _ p (mem_routesErase _ _ p hp) with hmem | hpe
          · exact Or.inl hmem
          · right
            rw [hpe]

/-- Entries after a non-panicking route_generic: pre-existing ones, PIC entries carrying the argument gsi, or IO-APIC entries carrying their own pin as gsi. -/
theorem route_generic_mem (hyp : Nat → Bool) (s : RTable) (gsi : Nat)
    (pin : Option Nat) (r : Except RError Nat) (s' : RTable)
    (h : RTable.route_generic hyp s gsi pin = .ok (r, s'))
    (p : Nat × Entry) (hp : p ∈ s'.routes) :
    p ∈ s.routes ∨ picOwnGsi gsi p.2 ∨ ioapicSelfGsi p.2 := by
  rcases h1 : s.xt_pic.allocate_pin pin with ⟨op, xt2⟩
  rcases op with _ | pic_pin
  · rw [RTable.route_generic, h1] at h
    rcases route_generic_ioapic_mem hyp _ pin none r s' h p hp with hmem | hio
    · exact Or.inl hmem
    · exact Or.inr (Or.inr hio)
  · rw [RTable.route_generic, h1] at h
    simp only [set_routing] at h
    have hchip :
        (if pic_pin ≤ 7 then (KVM_IRQCHIP_PIC_MASTER, pic_pin)
         else if pic_pin ≤ 15 then (KVM_IRQCHIP_PIC_SLAVE, pic_pin - 8)
         else (0, 0)).1 = KVM_IRQCHIP_PIC_MASTER ∨
        (if pic_pin ≤ 7 then (KVM_IRQCHIP_PIC_MASTER, pic_pin)
         else if pic_pin ≤ 15 then (KVM_IRQCHIP_PIC_SLAVE, pic_pin - 8)
         else (0, 0)).1 = KVM_IRQCHIP_PIC_SLAVE := by
      by_cases h7 : pic_pin ≤ 7
      · simp [h7, KVM_IRQCHIP_PIC_MASTER]
      · by_cases h15 : pic_pin ≤ 15
        · simp [h7, h15, KVM_IRQCHIP_PIC_SLAVE]
        · simp [h7, h15, KVM_IRQCHIP_PIC_MASTER]
    cases hb : hyp (s.commits) with
    | false =>
        rw [hb] at h
        simp only [Except.ok.injEq, Prod.mk.injEq] at h
        obtain ⟨hr, hs⟩ := h
        subst hs
        simp only at hp
        rcases mem_routesUpsert _ _ _ p (mem_routesErase _ _ p hp) with hmem | hpe
        · exact Or.inl hmem
        · refine Or.inr (Or.inl ?_)
          rw [hpe]
          exact ⟨rfl, hchip, rfl⟩
    | true =>
        rw [hb] at h
        rcases route_generic_ioapic_mem hyp _ (some pic_pin) (some pic_pin) r s' h p hp
          with hmem | hio
        · simp only at hmem
          rcases mem_routesUpsert _ _ _ p hmem with hmem2 | hpe
          · exact Or.inl hmem2
          · refine Or.inr (Or.inl ?_)
            rw [hpe]
            exact ⟨rfl, hchip, rfl⟩
        · exact Or.inr (Or.inr hio)

/-- Requested exclusive IO-APIC allocation, hit case. -/
theorem allocate_pin_exclusive_requested (s : IoApic) (p : Nat)
    (hmem : p ∈ s.available_pins) :
    s.allocate_pin false (some p) =
      .ok (some p, { available_pins := s.available_pins.erase p,
                     shared_pins := s.shared_pins }) := by
  simp [IoApic.allocate_pin, List.elem_eq_true_of_mem hmem]
  exact fun hx => absurd hmem hx

/-- Requested exclusive IO-APIC allocation, miss case: the source falls through to the generic path. -/
theorem allocate_pin_exclusive_requested_miss (s : IoApic) (p : Nat)
    (hmem : p ∉ s.available_pins) :
    s.allocate_pin false (some p) =
      match s.available_pins with
      | q :: rest => .ok (some q, { available_pins := rest, shared_pins := s.shared_pins })
      | [] => .ok (none, s) := by
  obtain ⟨avail, shared⟩ := s
  simp only at hmem
  have hc : avail.contains p = false := by
    rw [Bool.eq_false_iff]
    intro hx
    exact hmem (List.mem_of_elem_eq_true hx)
  cases avail with
  | nil => simp [IoApic.allocate_pin, hc]
  | cons q rest =>
      have hm : ¬(p = q ∨ p ∈ rest) := by simpa using hmem
      simp [IoApic.allocate_pin, hm]

/-- hash_key in closed arithmetic form on bounded fields: with the
chip component and type below 2^16 and the gsi below 2^32, the ors
combine disjoint bit ranges, so the key is the exact sum
2^48 * chip + 2^32 * type + gsi. -/
theorem hash_key_eq_of_bounds (e : Entry) (hc : chipOf e < 2 ^ 16)
    (ht : e.type_ < 2 ^ 16) (hg : e.gsi < 2 ^ 32) :
    hash_key e = 2 ^ 48 * chipOf e + 2 ^ 32 * e.type_ + e.gsi := by
  have hc32 : chipOf e % 2 ^ 32 = chipOf e :=
    Nat.mod_eq_of_lt (lt_trans hc (by norm_num))
  have ht32 : e.type_ % 2 ^ 32 = e.type_ :=
    Nat.mod_eq_of_lt (lt_trans ht (by norm_num))
  have hg32 : e.gsi % 2 ^ 32 = e.gsi := Nat.mod_eq_of_lt hg
  have hsh64 : (chipOf e <<< 48) % 2 ^ 64 = 2 ^ 48 * chipOf e := by
    rw [Nat.shiftLeft_eq]
    rw [Nat.mul_comm]
    exact Nat.mod_eq_of_lt (by calc
      2 ^ 48 * chipOf e < 2 ^ 48 * 2 ^ 16 := by
        exact (Nat.mul_lt_mul_left (by norm_num)).mpr hc
      _ = 2 ^ 64 := by norm_num)
  have h1 : 2 ^ 48 * chipOf e ||| e.type_ <<< 32 =
      2 ^ 48 * chipOf e + e.type_ * 2 ^ 32 := by
    rw [Nat.shiftLeft_eq]
    exact (Nat.mul_add_lt_is_or (by calc
      e.type_ * 2 ^ 32 < 2 ^ 16 * 2 ^ 32 := by
        exact (Nat.mul_lt_mul_right (by norm_num)).mpr ht
      _ = 2 ^ 48 := by norm_num) (chipOf e)).symm
  have h2 : (2 ^ 48 * chipOf e + e.type_ * 2 ^ 32) ||| e.gsi =
      2 ^ 48 * chipOf e + e.type_ * 2 ^ 32 + e.gsi := by
    have hx : 2 ^ 48 * chipOf e + e.type_ * 2 ^ 32 =
        2 ^ 32 * (2 ^ 16 * chipOf e + e.type_) := by ring
    rw [hx]
    exact (Nat.mul_add_lt_is_or hg _).symm
  unfold hash_key
  rw [hc32, ht32, hg32, hsh64, h1, h2]
  ring

/-- No KvmMsiInterrupt operation writes the config snapshot. -/
theorem msiStep_preserves_config (hyp : Nat → Bool) (s : KvmMsiState × RTable)
    (op : MsiOp) : (msiStep hyp s op).1.config = s.1.config := by
  cases op with
  | update cfg =>
      by_cases h : s.1.registered <;>
        simp [msiStep, KvmMsiInterrupt.update, h]
  | enable ok =>
      rcases h : KvmInterrupt.register_irqfd ok s.1.registered with e | v <;>
        simp [msiStep, KvmMsiInterrupt.enable, h]
  | disable ok =>
      rcases h : KvmInterrupt.unregister_irqfd ok s.1.registered with e | v <;>
        simp [msiStep, KvmMsiInterrupt.disable, h]
  | mask ok =>
      rcases h : KvmInterrupt.unregister_irqfd ok s.1.registered with e | v <;>
        simp [msiStep, KvmMsiInterrupt.disable, h]
  | unmask ok =>
      rcases h : KvmInterrupt.register_irqfd ok s.1.registered with e | v <;>
        simp [msiStep, KvmMsiInterrupt.enable, h]
  | trigger ok => rfl

/-- The config snapshot survives any operation sequence. -/
theorem msiRun_preserves_config (hyp : Nat → Bool) (ops : List MsiOp) :
    ∀ s : KvmMsiState × RTable, (msiRun hyp s ops).1.config = s.1.config := by
  induction ops with
  | nil => intro s; rfl
  | cons op ops ih =>
      intro s
      rw [msiRun, List.foldl_cons]
      rw [show List.foldl (msiStep hyp) (msiStep hyp s op) ops =
            msiRun hyp (msiStep hyp s op) ops from rfl]
      rw [ih (msiStep hyp s op)]
      exact msiStep_preserves_config hyp s op

/-- C1 counterexample: on a fresh x86_64 table with every commit
accepted, route_generic(32, None) twice leaves THREE route entries,
not the four the claim asserts - the second call's PIC entry reuses
the RouteKey of the first call's PIC entry (same chip, type and gsi)
and overwrites it in place. -/
theorem c1_counterexample :
    c1_run.map (fun r => r.2.2.length) = some 3 ∧ some 3 ≠ some 4 := by
  exact ⟨by decide, by decide⟩

/-- C1 (corrected): the exact run.  The first route_generic(32, None)
returns Ok(1) and the table then holds exactly the two claimed entries
(PIC_MASTER pin 1 under gsi 32, and the IO-APIC entry with pin 1 -
whose gsi field the source sets to the pin, 1).  The second call
returns Ok(3) but adds only ONE entry (IO-APIC pin 3): its PIC_MASTER
pin-3 entry replaces the pin-1 entry at the same RouteKey, so the
table holds three entries. -/
theorem c1_amended :
    c1_run = some
      ((1, [(4294967328, chipEntry KVM_IRQCHIP_PIC_MASTER 1 32),
            (562954248388609, chipEntry KVM_IRQCHIP_IOAPIC 1 1)]),
       (3, [(4294967328, chipEntry KVM_IRQCHIP_PIC_MASTER 3 32),
            (562954248388609, chipEntry KVM_IRQCHIP_IOAPIC 1 1),
            (562954248388611, chipEntry KVM_IRQCHIP_IOAPIC 3 3)])) := by
  decide

/-- C2 counterexample: the successful route_generic call with gsi = 32
of the C1 run installs an IO-APIC entry whose gsi field is 1 (its own
pin), not the argument 32 - kvm_irq_routing.rs line 233 builds the
IO-APIC entry with gsi: ioapic_pin. -/
theorem c2_counterexample :
    c1_run.map (fun r => r.1.2.map (fun p => (p.2.irqchip_irqchip, p.2.gsi))) =
      some [(KVM_IRQCHIP_PIC_MASTER, 32), (KVM_IRQCHIP_IOAPIC, 1)] ∧ (1 : Nat) ≠ 32 := by
  exact ⟨by decide, by decide⟩

/-- C2 (corrected): every entry added by route_msi or route_intx (on
any outcome) carries the gsi argument of the call; for route_generic,
every added entry is either a PIC entry carrying the argument gsi or
an IO-APIC entry whose gsi field is its own allocated pin (entries
present before the call are untouched or removed). -/
theorem c2_amended :
    (∀ hyp s gsi hi lo data devid r s',
        RTable.route_msi hyp s gsi hi lo data devid = (r, s') →
        ∀ p ∈ s'.routes, p ∈ s.routes ∨ p.2.gsi = gsi) ∧
    (∀ hyp s gsi ix pin r s',
        RTable.route_intx hyp s gsi ix pin = .ok (r, s') →
        ∀ p ∈ s'.routes, p ∈ s.routes ∨ p.2.gsi = gsi) ∧
    (∀ hyp s gsi pin r s',
        RTable.route_generic hyp s gsi pin = .ok (r, s') →
        ∀ p ∈ s'.routes, p ∈ s.routes ∨ picOwnGsi gsi p.2 ∨ ioapicSelfGsi p.2) :=
  ⟨fun hyp s gsi hi lo data devid r s' h p hp =>
      route_msi_mem hyp s gsi hi lo data devid r s' h p hp,
   fun hyp s gsi ix pin r s' h p hp =>
      route_intx_mem hyp s gsi ix pin r s' h p hp,
   fun hyp s gsi pin r s' h p hp =>
      route_generic_mem hyp s gsi pin r s' h p hp⟩

/-- Witness for c2_amended at a concrete input: the entry added by
route_msi on a fresh table with gsi 9 carries gsi 9. -/
theorem c2_amended_witness :
    (hash_key (msiEntry 9 1 2 3 4), msiEntry 9 1 2 3 4) ∈ (RTable.fresh 23).routes ∨
      (hash_key (msiEntry 9 1 2 3 4), msiEntry 9 1 2 3 4).2.gsi = 9 :=
  c2_amended.1 htrue (RTable.fresh 23) 9 1 2 3 4
    (RTable.route_msi htrue (RTable.fresh 23) 9 1 2 3 4).1
    (RTable.route_msi htrue (RTable.fresh 23) 9 1 2 3 4).2
    rfl (hash_key (msiEntry 9 1 2 3 4), msiEntry 9 1 2 3 4) (by decide)

/-- The IO-APIC half of route_generic never returns a failing result
once the PIC half has succeeded (interrupt_line is Some): every Ok
outcome carries an Ok line - this is the excluded
PIC-ok/IO-APIC-fail case of the failure claims. -/
theorem route_generic_ioapic_some_line (hyp : Nat → Bool) (s : RTable)
    (req : Option Nat) (l : Nat) (r : Except RError Nat) (s' : RTable)
    (h : RTable.route_generic_ioapic hyp s req (some l) = .ok (r, s')) :
    ∃ l', r = .ok l' := by
  rcases h1 : s.ioapic.allocate_pin false req with e | ⟨op, io2⟩
  · rw [RTable.route_generic_ioapic, h1] at h
    exact absurd h (by simp)
  · rcases op with _ | pin
    · rw [RTable.route_generic_ioapic, h1] at h
      simp only [Except.ok.injEq, Prod.mk.injEq] at h
      exact ⟨l, h.1.symm⟩
    · rw [RTable.route_generic_ioapic, h1] at h
      simp only [set_routing] at h
      cases hb : hyp s.commits with
      | true =>
          rw [hb] at h
          simp only [Except.ok.injEq, Prod.mk.injEq] at h
          exact ⟨pin, h.1.symm⟩
      | false =>
          rw [hb] at h
          simp only [Except.ok.injEq, Prod.mk.injEq] at h
          exact ⟨l, h.1.symm⟩

/-- Failing outcomes of the IO-APIC half of route_generic when the PIC
half did not succeed: a PinAllocationError leaves the routes
untouched; a GsiRoutingError leaves routesErase of some key, a no-op
when the key was absent. -/
theorem route_generic_ioapic_fail_none (hyp : Nat → Bool) (s : RTable)
    (req : Option Nat) (e : RError) (s' : RTable)
    (h : RTable.route_generic_ioapic hyp s req none = .ok (.error e, s')) :
    (e = .pinAllocationError → s'.routes = s.routes) ∧
    (e = .gsiRoutingError → ∃ k, s'.routes = routesErase s.routes k ∧
      (s.routes.lookup k = none → s'.routes = s.routes)) := by
  rcases h1 : s.ioapic.allocate_pin false req with e2 | ⟨op, io2⟩
  · rw [RTable.route_generic_ioapic, h1] at h
    exact absurd h (by simp)
  · rcases op with _ | pin
    · rw [RTable.route_generic_ioapic, h1] at h
      simp only [Except.ok.injEq, Prod.mk.injEq, Except.error.injEq] at h
      obtain ⟨he, hs⟩ := h
      subst hs
      constructor
      · intro _
        rfl
      · intro hge
        rw [← he] at hge
        exact absurd hge (by simp)
    · rw [RTable.route_generic_ioapic, h1] at h
      simp only [set_routing] at h
      cases hb : hyp s.commits with
      | true =>
          rw [hb] at h
          exact absurd h (by simp)
      | false =>
          rw [hb] at h
          simp only [Except.ok.injEq, Prod.mk.injEq, Except.error.injEq] at h
          obtain ⟨he, hs⟩ := h
          subst hs
          constructor
          · intro hpe
            rw [← he] at hpe
            exact absurd hpe (by simp)
          · intro _
            refine ⟨hash_key (chipEntry KVM_IRQCHIP_IOAPIC pin pin), ?_, ?_⟩
            · simp only
              exact routesErase_upsert _ _ _
            · intro hnone
              simp only
              rw [routesErase_upsert]
              exact routesErase_of_lookup_none _ _ hnone

/-- Failing outcomes of route_intx: pool exhaustion leaves the routes
untouched; a commit failure erases the affected RouteKey, a no-op when
the key was absent. -/
theorem route_intx_fail (hyp : Nat → Bool) (s : RTable) (gsi ix : Nat)
    (pin : Option Nat) (e : RError) (s' : RTable)
    (h : RTable.route_intx hyp s gsi ix pin = .ok (.error e, s')) :
    (e = .pinAllocationError → s'.routes = s.routes) ∧
    (e = .gsiRoutingError → ∃ k, s'.routes = routesErase s.routes k ∧
      (s.routes.lookup k = none → s'.routes = s.routes)) := by
  rcases h1 : s.ioapic.allocate_pin true pin with e2 | ⟨op, io2⟩
  · rw [RTable.route_intx, h1] at h
    exact absurd h (by simp)
  · rcases op with _ | p
    · rw [RTable.route_intx, h1] at h
      simp only [Except.ok.injEq, Prod.mk.injEq, Except.error.injEq] at h
      obtain ⟨he, hs⟩ := h
      subst hs
      constructor
      · intro _
        rfl
      · intro hge
        rw [← he] at hge
        exact absurd hge (by simp)
    · rw [RTable.route_intx, h1] at h
      simp only [set_routing] at h
      cases hb : hyp s.commits with
      | true =>
          rw [hb] at h
          exact absurd h (by simp)
      | false =>
          rw [hb] at h
          simp only [Except.ok.injEq, Prod.mk.injEq, Except.error.injEq] at h
          obtain ⟨he, hs⟩ := h
          subst hs
          constructor
          · intro hpe
            rw [← he] at hpe
            exact absurd hpe (by simp)
          · intro _
            refine ⟨hash_key (chipEntry KVM_IRQCHIP_IOAPIC p gsi), ?_, ?_⟩
            · simp only
              exact routesErase_upsert _ _ _
            · intro hnone
              simp only
              rw [routesErase_upsert]
              exact routesErase_of_lookup_none _ _ hnone

/-- Failing outcomes of route_generic (necessarily outside the
excluded PIC-ok/IO-APIC-fail case, which returns Ok): pool exhaustion
on both chips leaves the routes untouched; a commit failure erases the
affected RouteKey, a no-op when the key was absent. -/
theorem route_generic_fail (hyp : Nat → Bool) (s : RTable) (gsi : Nat)
    (pin : Option Nat) (e : RError) (s' : RTable)
    (h : RTable.route_generic hyp s gsi pin = .ok (.error e, s')) :
    (e = .pinAllocationError → s'.routes = s.routes) ∧
    (e = .gsiRoutingError → ∃ k, s'.routes = routesErase s.routes k ∧
      (s.routes.lookup k = none → s'.routes = s.routes)) := by
  rcases h1 : s.xt_pic.allocate_pin pin with ⟨op, xt2⟩
  rcases op with _ | pic_pin
  · rw [RTable.route_generic, h1] at h
    have h2 : RTable.route_generic_ioapic hyp
        { s with xt_pic := xt2 } pin none = .ok (.error e, s') := h
    exact route_generic_ioapic_fail_none hyp { s with xt_pic := xt2 } pin e s' h2
  · rw [RTable.route_generic, h1] at h
    simp only [set_routing] at h
    cases hb : hyp s.commits with
    | true =>
        rw [hb] at h
        rcases route_generic_ioapic_some_line hyp _ (some pic_pin) pic_pin (.error e) s' h
          with ⟨l', hl'⟩
        exact absurd hl' (by simp)
    | false =>
        rw [hb] at h
        simp only [Except.ok.injEq, Prod.mk.injEq, Except.error.injEq] at h
        obtain ⟨he, hs⟩ := h
        subst hs
        constructor
        · intro hpe
          rw [← he] at hpe
          exact absurd hpe (by simp)
        · intro _
          refine ⟨hash_key
            { Entry.default0 with
              gsi := gsi, type_ := KVM_IRQ_ROUTING_IRQCHIP,
              irqchip_irqchip :=
                (if pic_pin ≤ 7 then (KVM_IRQCHIP_PIC_MASTER, pic_pin)
                 else if pic_pin ≤ 15 then (KVM_IRQCHIP_PIC_SLAVE, pic_pin - 8)
                 else (0, 0)).1,
              irqchip_pin :=
                (if pic_pin ≤ 7 then (KVM_IRQCHIP_PIC_MASTER, pic_pin)
                 else if pic_pin ≤ 15 then (KVM_IRQCHIP_PIC_SLAVE, pic_pin - 8)
                 else (0, 0)).2 }, ?_, ?_⟩
          · simp only
            exact routesErase_upsert _ _ _
          · intro hnone
            simp only
            rw [routesErase_upsert]
            exact routesErase_of_lookup_none _ _ hnone


/-- C3 counterexample: route_msi on gsi 5 whose RouteKey already holds
an entry (routes length 1), followed by a commit failure, removes the
pre-existing entry - the rollback is HashMap::remove of the key, not a
restore - leaving an empty table instead of the unchanged one the
claim asserts. -/
theorem c3_counterexample :
    c3_run = some (1, []) ∧ (0 : Nat) ≠ 1 := ⟨by decide, by decide⟩

/-- When the hypervisor rejects the commit, route_msi returns
GsiRoutingError and its rollback erases the affected RouteKey
outright: the resulting routes are routesErase of the original ones,
so the table is unchanged exactly when the key was not already present
(fresh-key failures preserve the table; overwriting failures lose the
previous entry). -/
theorem route_msi_commit_failure (hyp : Nat → Bool) (s : RTable)
    (gsi hi lo data devid : Nat) (hfail : hyp s.commits = false) :
    (RTable.route_msi hyp s gsi hi lo data devid).1 = .error .gsiRoutingError ∧
    (RTable.route_msi hyp s gsi hi lo data devid).2.routes =
      routesErase s.routes (hash_key (msiEntry gsi hi lo data devid)) ∧
    (s.routes.lookup (hash_key (msiEntry gsi hi lo data devid)) = none →
      (RTable.route_msi hyp s gsi hi lo data devid).2.routes = s.routes) := by
  have hrun : RTable.route_msi hyp s gsi hi lo data devid =
      (.error .gsiRoutingError,
       { s with commits := s.commits + 1,
                routes := routesErase (routesUpsert s.routes
                  (hash_key (msiEntry gsi hi lo data devid))
                  (msiEntry gsi hi lo data devid))
                  (hash_key (msiEntry gsi hi lo data devid)) }) := by
    simp [RTable.route_msi, set_routing, hfail]
  refine ⟨by rw [hrun], ?_, ?_⟩
  · rw [hrun]
    exact routesErase_upsert _ _ _
  · intro hnone
    rw [hrun]
    simp only
    rw [routesErase_upsert, routesErase_of_lookup_none _ _ hnone]

/-- C3 (corrected): for every failing public mutation of the routing
table other than the route_generic PIC-ok/IO-APIC-fail case (which
returns Ok and so never surfaces as a failure), the rollback removes
at most the just-inserted RouteKey: route_msi with a rejected commit
returns GsiRoutingError with the routes equal to routesErase of the
originals (unchanged when the key was fresh, the previous entry lost
when the key was occupied); every failing route_intx and
route_generic either fails before inserting (pool exhaustion, routes
untouched) or erases exactly its RouteKey, again a no-op when that
key was absent. -/
theorem c3_amended :
    (∀ hyp s gsi hi lo data devid, hyp (s.commits) = false →
      (RTable.route_msi hyp s gsi hi lo data devid).1 = .error .gsiRoutingError ∧
      (RTable.route_msi hyp s gsi hi lo data devid).2.routes =
        routesErase s.routes (hash_key (msiEntry gsi hi lo data devid)) ∧
      (s.routes.lookup (hash_key (msiEntry gsi hi lo data devid)) = none →
        (RTable.route_msi hyp s gsi hi lo data devid).2.routes = s.routes)) ∧
    (∀ hyp s gsi ix pin e s', RTable.route_intx hyp s gsi ix pin = .ok (.error e, s') →
      (e = .pinAllocationError → s'.routes = s.routes) ∧
      (e = .gsiRoutingError → ∃ k, s'.routes = routesErase s.routes k ∧
        (s.routes.lookup k = none → s'.routes = s.routes))) ∧
    (∀ hyp s gsi pin e s', RTable.route_generic hyp s gsi pin = .ok (.error e, s') →
      (e = .pinAllocationError → s'.routes = s.routes) ∧
      (e = .gsiRoutingError → ∃ k, s'.routes = routesErase s.routes k ∧
        (s.routes.lookup k = none → s'.routes = s.routes))) :=
  ⟨fun hyp s gsi hi lo data devid hfail =>
      route_msi_commit_failure hyp s gsi hi lo data devid hfail,
   fun hyp s gsi ix pin e s' h => route_intx_fail hyp s gsi ix pin e s' h,
   fun hyp s gsi pin e s' h => route_generic_fail hyp s gsi pin e s' h⟩

/-- Witness for c3_amended at a concrete input: with every commit
rejected, route_msi on a fresh table fails with GsiRoutingError. -/
theorem c3_amended_witness :
    (RTable.route_msi hfalse (RTable.fresh 23) 5 1 2 3 4).1 = .error .gsiRoutingError :=
  (c3_amended.1 hfalse (RTable.fresh 23) 5 1 2 3 4 (by decide)).1

/-- C4 (code bug): GsiAllocator::new(IRQ_MAX) at IRQ_BASE = 5,
IRQ_MAX = 23.  The first allocate_irq returns IRQ_BASE = 5 but
advances the IRQ cursor to next_gsi + 1 = 25 (the source reads the GSI
cursor), so the second call - which the claim (and IRQ_BASE + 1 ≤
IRQ_MAX) says must succeed with 6 - already fails with Overflow. -/
theorem c4_bug :
    (c4_alloc.allocate_irq.1 = .ok 5) ∧
    (c4_alloc.allocate_irq.2.next_irq = 25) ∧
    ((c4_alloc.allocate_irq.2.allocate_irq.1 = .error .overflow) ∧ 5 + 1 ≤ 23) := by
  decide

/-- C5 counterexample: on a fresh pool, pin 2 is not available, yet
allocate_pin(false, Some(2)) returns Some(1) instead of the None the
claim asserts: the exclusive requested-pin miss falls through to the
generic lowest-available path. -/
theorem c5_counterexample :
    (2 ∉ (IoApic.new 23).available_pins) ∧
    ((IoApic.new 23).allocate_pin false (some 2)).toOption.map (fun r => r.1) =
      some (some 1) := by
  exact ⟨by decide, by decide⟩

/-- C5 (corrected): allocate_pin(false, Some(p)) returns Some(p) and
removes it when p is available; when p is not available the exclusive
request falls back to the generic path, returning the minimum
available pin (with the pool unchanged and None only when the pool is
empty) - so an exclusive allocation with a requested pin can return a
pin other than p. -/
theorem c5_amended (s : IoApic) (p : Nat) :
    (p ∈ s.available_pins →
      s.allocate_pin false (some p) =
        .ok (some p, { available_pins := s.available_pins.erase p,
                       shared_pins := s.shared_pins })) ∧
    (p ∉ s.available_pins →
      s.allocate_pin false (some p) =
        match s.available_pins with
        | q :: rest => .ok (some q, { available_pins := rest, shared_pins := s.shared_pins })
        | [] => .ok (none, s)) :=
  ⟨allocate_pin_exclusive_requested s p, allocate_pin_exclusive_requested_miss s p⟩

/-- Witness for c5_amended at a concrete input: pin 1 is available in
a fresh 3-pin pool and is returned and removed. -/
theorem c5_amended_witness :
    (IoApic.new 3).allocate_pin false (some 1) =
      .ok (some 1, { available_pins := (IoApic.new 3).available_pins.erase 1,
                     shared_pins := (IoApic.new 3).shared_pins }) :=
  (c5_amended (IoApic.new 3) 1).1 (by decide)

/-- C6 (code bug): after the 22 exclusive allocations that exhaust a
fresh 23-pin pool, one more exclusive call returns None, but
allocate_pin(true, None) PANICS (shared_pins.pop_front().unwrap() on
an empty deque) instead of returning None as the claim - and the
Option return type - requires. -/
theorem c6_bug :
    c6_state.available_pins = [] ∧ c6_state.shared_pins = [] ∧
    c6_state.allocate_pin false none = .ok (none, c6_state) ∧
    c6_state.allocate_pin true none = .error .panicked := by
  decide

/-- C7 (code bug): on an unregistered MSI interrupt, update(cfg)
installs an entry whose address_hi is cfg.low_addr and whose
address_lo is cfg.high_addr - mod.rs passes (cfg.low_addr,
cfg.high_addr) into route_msi's (high_addr, low_addr) parameters, so
the halves are swapped (data, devid and flags are installed as
claimed).  The registered case is rejected with InvalidConfiguration
and leaves the table untouched, as claimed. -/
theorem c7_bug :
    (c7_run = some [msiEntry 40 2 1 3 4]) ∧
    ((msiEntry 40 2 1 3 4).msi_address_hi = c7_cfg.low_addr) ∧
    ((msiEntry 40 2 1 3 4).msi_address_lo = c7_cfg.high_addr) ∧
    ((msiEntry 40 2 1 3 4).msi_address_hi ≠ c7_cfg.high_addr) ∧
    (KvmMsiInterrupt.update htrue { KvmMsiState.new 40 with registered := true }
        (RTable.fresh 23) c7_cfg =
      (.error .invalidConfiguration, { KvmMsiState.new 40 with registered := true },
       RTable.fresh 23)) := by
  refine ⟨by decide, by decide, by decide, by decide, by decide⟩

/-- C8 (code bug): a legacy update whose routing call fails (the same
route_intx call errors with GsiRoutingError, first component) still
stores the snapshot, sets configured, and returns Ok - mod.rs discards
the routing result and runs the success path unconditionally, where
the claim requires the error to propagate and configured to stay
false. -/
theorem c8_bug :
    c8_run = some (.error .gsiRoutingError, .ok (),
      { gsi := 40, registered := false, configured := true, config := some c8_cfg }) := by
  decide

/-- C9 counterexample: two entries with distinct (chip, type, gsi)
triples and equal hash keys: the slave-PIC IRQCHIP entry (1, 1, 0) and
an entry of type 65537 (bit 16 set), whose chip component hash_key
reads as 0, both hash to 2^48 + 2^32. -/
theorem c9_counterexample :
    (chipOf c9a, c9a.type_, c9a.gsi) ≠ (chipOf c9b, c9b.type_, c9b.gsi) ∧
    hash_key c9a = hash_key c9b := ⟨by decide, by decide⟩

/-- C9 (corrected): hash_key is injective over distinct (chip, type,
gsi) triples whenever the chip component and the entry type are below
2^16 and the gsi is a u32 - which covers every chip (0..2) and type
(1, 2) this table ever uses; in particular the same gsi routed to a
PIC chip and to the IO-APIC occupies two distinct slots. -/
theorem hash_key_inj_bounded (e1 e2 : Entry)
    (hc1 : chipOf e1 < 2 ^ 16) (ht1 : e1.type_ < 2 ^ 16) (hg1 : e1.gsi < 2 ^ 32)
    (hc2 : chipOf e2 < 2 ^ 16) (ht2 : e2.type_ < 2 ^ 16) (hg2 : e2.gsi < 2 ^ 32)
    (hne : (chipOf e1, e1.type_, e1.gsi) ≠ (chipOf e2, e2.type_, e2.gsi)) :
    hash_key e1 ≠ hash_key e2 := by
  intro h
  rw [hash_key_eq_of_bounds e1 hc1 ht1 hg1, hash_key_eq_of_bounds e2 hc2 ht2 hg2] at h
  apply hne
  have h1 : chipOf e1 = chipOf e2 := by omega
  have h2 : e1.type_ = e2.type_ := by omega
  have h3 : e1.gsi = e2.gsi := by omega
  rw [h1, h2, h3]

/-- Witness for hash_key_inj_bounded at a concrete input: the
PIC_MASTER and IO-APIC IRQCHIP entries for pin 1, gsi 32 get distinct
keys. -/
theorem hash_key_inj_witness :
    hash_key (chipEntry KVM_IRQCHIP_PIC_MASTER 1 32) ≠
      hash_key (chipEntry KVM_IRQCHIP_IOAPIC 1 32) :=
  hash_key_inj_bounded _ _ (by decide) (by decide) (by decide)
    (by decide) (by decide) (by decide) (by decide)

/-- C10: for every MSI interrupt, after ANY sequence of public
operations (updates with arbitrary configurations, enable / disable /
mask / unmask under arbitrary ioctl outcomes, triggers) starting from
construction, the stored configuration snapshot is still None - no
operation ever writes it - so get_config returns InvalidConfiguration
in every reachable state. -/
theorem c10_get_config_always_invalid (hyp : Nat → Bool) (gsi : Nat) (t : RTable)
    (ops : List MsiOp) :
    KvmMsiInterrupt.get_config (msiRun hyp (KvmMsiState.new gsi, t) ops).1 =
      .error .invalidConfiguration := by
  rw [KvmMsiInterrupt.get_config]
  rw [msiRun_preserves_config hyp ops (KvmMsiState.new gsi, t)]
  rfl
